import Mathlib

/-!
Shallow embedding of `TopUpDeploymentsService`
(`src/apps/api/src/deployment/services/top-up-deployments/top-up-deployments.service.ts`).

Modelling choices:
* Asynchronous effectful computations are embedded as deterministic values of
  type `Except Err α × List Event`: the result (success or raised error) paired
  with the linear trace of observable effects (HTTP calls to the collaborators,
  structured log records, Sentry captures) emitted during the computation.
* External collaborators (`BalanceHttpService`, `AllowanceHttpService`,
  the wallet resolvers and the grant registry) live in an `Env` record; their
  calls may fail with an arbitrary error, which models a thrown exception.
* JavaScript numbers produced by `parseFloat` are modelled as `Option ℚ`
  with `none` playing the role of `NaN` (no arithmetic is performed on these
  values anywhere in the service, only parsing, storing and logging, so the
  rationals-plus-NaN model is exact for every value the service handles).
* The cooperative concurrency of `Promise.all` over the two custodial wallet
  roles is modelled separately by a schedule-indexed interleaving of the two
  roles' effect traces (`topUpDeploymentsSched`); the plain `topUpDeployments`
  definition is the canonical linearization used by the order-insensitive
  properties (completion counts, event absence, error isolation).
-/

/-- `spend_limit` field of a deployment grant's authorization
(`{denom, amount}` with the amount as a decimal string, as delivered by the
registry). Also the element type of a fee allowance's `spend_limit` list. -/
structure SpendLimit where
  denom : String
  amount : String
  deriving DecidableEq

/-- `authorization` field of a `DeploymentAllowance`. -/
structure Authorization where
  spend_limit : SpendLimit
  deriving DecidableEq

/-- A deployment grant as read from the registry (`DeploymentAllowance` in the
source): granter address, grantee address and the spend-limit authorization. -/
structure DeploymentAllowance where
  granter : String
  grantee : String
  authorization : Authorization
  deriving DecidableEq

/-- Body of a fee allowance: its list of per-denom spend limits. -/
structure FeeAllowanceBody where
  spend_limit : List SpendLimit
  deriving DecidableEq

/-- A fee allowance between a granter and a grantee, as returned by
`getFeeAllowanceForGranterAndGrantee`. -/
structure FeeAllowance where
  allowance : FeeAllowanceBody
  deriving DecidableEq

/-- A coin as returned by `BalanceHttpService.getBalance`: denom plus the
amount as a decimal string. -/
structure Coin where
  denom : String
  amount : String
  deriving DecidableEq

/-- Modelled from the spec: `DrainingDeploymentOutput` comes from
`LeaseRepository` (not under the sources in scope); §3 of the spec says only
its identity and owner are relevant to this core. -/
structure DrainingDeploymentOutput where
  id : Nat
  owner : String
  deriving DecidableEq

/-- The two-valued owner tag of the service (`type OwnerType = "CUSTODIAL" | "MANAGED"`). -/
inductive OwnerType where
  | CUSTODIAL
  | MANAGED
  deriving DecidableEq

/-- A JavaScript number as produced by `parseFloat`: a rational, or `none`
standing for `NaN`. -/
abbrev JsNum := Option ℚ

/-- Numeric value of a digit string (most significant digit first). -/
def digitsVal (cs : List Char) : Nat :=
  cs.foldl (fun acc c => acc * 10 + (c.toNat - 48)) 0

/-- Model of JavaScript `parseFloat` on the decimal forms that occur in this
service's data (optional whitespace, optional sign, integer digits, optional
fractional part): `NaN` (`none`) when no digit can be parsed, otherwise the
signed decimal value of the longest valid prefix. -/
def parseFloat (s : String) : JsNum :=
  let cs := s.data.dropWhile Char.isWhitespace
  let signAndRest : Int × List Char :=
    match cs with
    | '-' :: rest => (-1, rest)
    | '+' :: rest => (1, rest)
    | _ => (1, cs)
  let sign := signAndRest.1
  let cs' := signAndRest.2
  let intPart := cs'.takeWhile Char.isDigit
  let rest := cs'.dropWhile Char.isDigit
  let fracPart : List Char :=
    match rest with
    | '.' :: r => r.takeWhile Char.isDigit
    | _ => []
  if intPart.isEmpty && fracPart.isEmpty then none
  else some (mkRat (sign * ((digitsVal intPart * 10 ^ fracPart.length + digitsVal fracPart : ℕ) : Int))
                   (10 ^ fracPart.length))

/-- Model of the derived `Balances` record of the service (per-grant,
ephemeral). Numeric fields are `JsNum` because the source stores raw
`parseFloat` results in them. -/
structure Balances where
  denom : String
  feesLimit : JsNum
  deploymentLimit : JsNum
  balance : JsNum
  isManaged : Bool
  deriving DecidableEq

/-- Errors thrown by external collaborators and caught by
`execWithErrorHandler`; the service only ever forwards them opaquely, so a
string message suffices. -/
abbrev Err := String

deriving instance DecidableEq for Except

/-- Observable effects of a run: HTTP calls to the collaborators, structured
log records and Sentry captures, in the order they are issued. -/
inductive Event where
  /-- A page of grants delivered by `paginateDeploymentGrants` for the given
  filter (side, address), carrying the page size. -/
  | pageFetched (side address : String) (size : Nat)
  /-- Call to `getFeeAllowanceForGranterAndGrantee granter grantee`. -/
  | feeAllowanceFetched (granter grantee : String)
  /-- Call to `getBalance address denom`. -/
  | balanceFetched (address denom : String)
  /-- The `BALANCES_COLLECTED` debug log of `topUpForGrant`. -/
  | balancesCollected (granter grantee : String)
  /-- The `RETRIEVING_DRAINING_DEPLOYMENTS` debug log of the stub. -/
  | retrievingDraining (owner : String)
  /-- The `CALCULATING_TOP_UP_AMOUNT` debug log of the stub. -/
  | calculatingTopUp
  /-- The `VALIDATING_TOP_UP_AMOUNT` debug log of the stub. -/
  | validatingTopUp
  /-- `sentry.captureEvent` inside the catch of `execWithErrorHandler`. -/
  | sentryCaptured
  /-- The `TOP_UP_FAILED` error log inside the catch of `execWithErrorHandler`. -/
  | topUpFailed
  deriving DecidableEq

/-- The external collaborators injected into the service, as pure data:
balance lookup, fee-allowance lookup, the grant registry (as the list of pages
it delivers for a side/address filter) and the three resolved wallet
addresses. -/
structure Env where
  getBalance : String → String → Except Err Coin
  getFeeAllowanceForGranterAndGrantee : String → String → Except Err FeeAllowance
  deploymentGrantPages : String → String → List (List DeploymentAllowance)
  uaktTopUpAddress : String
  usdcTopUpAddress : String
  managedAddress : String

/-- `private UNLIMITED_FEES_MANAGED_BALANCE = 1000000`. -/
def UNLIMITED_FEES_MANAGED_BALANCE : ℚ := 1000000

/-- `private readonly CONCURRENCY = 10` (the page size passed to the
registry's pagination). -/
def CONCURRENCY : Nat := 10

/-- `retrieveFeesLimit(granter, grantee, denom)`: fetch the fee allowance for
the pair and return the parsed amount of the spend-limit entry matching
`denom`, or `0` when no entry matches. -/
def retrieveFeesLimit (env : Env) (granter grantee denom : String) :
    Except Err JsNum × List Event :=
  match env.getFeeAllowanceForGranterAndGrantee granter grantee with
  | .error e => (.error e, [.feeAllowanceFetched granter grantee])
  | .ok feesAllowance =>
    let feesSpendLimit := feesAllowance.allowance.spend_limit.find? (fun limit => limit.denom == denom)
    (.ok (match feesSpendLimit with
          | some l => parseFloat l.amount
          | none => some 0),
     [.feeAllowanceFetched granter grantee])

/-- `collectWalletBalances(ownerType, grant)`: read denom and spend limit from
the grant, order the `[granter, grantee]` pair (reversed when managed), take
the fee limit (sentinel when managed, fee-allowance lookup when custodial),
fetch the balance of the first side and assemble the `Balances` record. -/
def collectWalletBalances (env : Env) (ownerType : OwnerType) (grant : DeploymentAllowance) :
    Except Err Balances × List Event :=
  let denom := grant.authorization.spend_limit.denom
  let deploymentLimit := parseFloat grant.authorization.spend_limit.amount
  let sides0 := [grant.granter, grant.grantee]
  let isManaged := ownerType == OwnerType.MANAGED
  let sides := if isManaged then sides0.reverse else sides0
  let feesLimitRes : Except Err JsNum × List Event :=
    if isManaged then (.ok (some UNLIMITED_FEES_MANAGED_BALANCE), [])
    else retrieveFeesLimit env (sides.getD 0 "") (sides.getD 1 "") denom
  match feesLimitRes with
  | (.error e, t) => (.error e, t)
  | (.ok feesLimit, t) =>
    match env.getBalance (sides.getD 0 "") denom with
    | .error e => (.error e, t ++ [.balanceFetched (sides.getD 0 "") denom])
    | .ok coin =>
      let balance := parseFloat coin.amount
      (.ok { denom := denom, feesLimit := feesLimit, deploymentLimit := deploymentLimit,
             balance := balance, isManaged := isManaged },
       t ++ [.balanceFetched (sides.getD 0 "") denom])

/-- `retrieveDrainingDeployments(owner)`: the shipped stub — logs a debug
record and returns the empty list. -/
def retrieveDrainingDeployments (owner : String) :
    Except Err (List DrainingDeploymentOutput) × List Event :=
  (.ok [], [.retrievingDraining owner])

/-- `calculateTopUpAmount(deployment)`: the shipped stub — logs and returns `0`. -/
def calculateTopUpAmount (_deployment : DrainingDeploymentOutput) :
    Except Err JsNum × List Event :=
  (.ok (some 0), [.calculatingTopUp])

/-- `validateTopUpAmount(amount, balances)`: the shipped stub — logs only. -/
def validateTopUpAmount (_amount : JsNum) (_balances : Balances) : List Event :=
  [.validatingTopUp]

/-- The fire-and-forget `drainingDeployments.map(async ...)` loop of
`topUpForGrant`: each deployment's policy invocation runs with its result and
any failure discarded (the promises are never awaited), leaving only the
emitted trace. -/
def policyFanout (ds : List DrainingDeploymentOutput) (balances : Balances) : List Event :=
  ds.flatMap (fun deployment =>
    let r := calculateTopUpAmount deployment
    match r.1 with
    | .error _ => r.2
    | .ok topUpAmount => r.2 ++ validateTopUpAmount topUpAmount balances)

/-- `topUpForGrant(ownerType, grant)`: resolve the owner side, collect
balances, log them, retrieve draining deployments and fan the policy out over
them. -/
def topUpForGrant (env : Env) (ownerType : OwnerType) (grant : DeploymentAllowance) :
    Except Err Unit × List Event :=
  let owner := if ownerType == OwnerType.CUSTODIAL then grant.granter else grant.grantee
  match collectWalletBalances env ownerType grant with
  | (.error e, t) => (.error e, t)
  | (.ok balances, t) =>
    let t1 := t ++ [.balancesCollected owner grant.grantee]
    match retrieveDrainingDeployments owner with
    | (.error e, t2) => (.error e, t1 ++ t2)
    | (.ok ds, t2) => (.ok (), t1 ++ t2 ++ policyFanout ds balances)

/-- `execWithErrorHandler(cb)`: run the callback; on failure capture the error
to Sentry and log `TOP_UP_FAILED`; never re-raise. -/
def execWithErrorHandler (cb : Except Err Unit × List Event) :
    Except Err Unit × List Event :=
  match cb with
  | (.ok _, t) => (.ok (), t)
  | (.error _, t) => (.ok (), t ++ [.sentryCaptured, .topUpFailed])

/-- `Promise.all` over unit computations (linearized trace): all branches run
and their traces concatenate; the aggregate rejects exactly when some branch
rejects. -/
def promiseAllUnit : List (Except Err Unit × List Event) → Except Err Unit × List Event
  | [] => (.ok (), [])
  | x :: xs =>
    let rest := promiseAllUnit xs
    match x.1 with
    | .ok _ => (rest.1, x.2 ++ rest.2)
    | .error e => (.error e, x.2 ++ rest.2)

/-- The per-page callback of `topUpDeployments`: every grant of the page is
processed through `execWithErrorHandler (topUpForGrant ...)` under
`Promise.all`. -/
def processPage (env : Env) (ownerType : OwnerType) (grants : List DeploymentAllowance) :
    Except Err Unit × List Event :=
  promiseAllUnit (grants.map (fun grant => execWithErrorHandler (topUpForGrant env ownerType grant)))

/-- Modelled from the spec: `AllowanceHttpService.paginateDeploymentGrants`
lives in the `http-sdk` package outside the sources in scope; §4.1 requires it
to call `onPage` once per page in registry order until the registry is
exhausted, not fetching the next page before the callback finished. An error
raised by the callback propagates (page-fetch and callback failures abort the
traversal, §7). -/
def runPages (side address : String)
    (onPage : List DeploymentAllowance → Except Err Unit × List Event) :
    List (List DeploymentAllowance) → Except Err Unit × List Event
  | [] => (.ok (), [])
  | page :: rest =>
    match onPage page with
    | (.error e, t) => (.error e, Event.pageFetched side address page.length :: t)
    | (.ok _, t) =>
      let r := runPages side address onPage rest
      (r.1, Event.pageFetched side address page.length :: (t ++ r.2))

/-- `paginateDeploymentGrants({side, address, limit}, onPage)` applied to the
registry's pages for the filter. -/
def paginateDeploymentGrants (env : Env) (side address : String)
    (onPage : List DeploymentAllowance → Except Err Unit × List Event) :
    Except Err Unit × List Event :=
  runPages side address onPage (env.deploymentGrantPages side address)

/-- One custodial wallet role's traversal inside `topUpDeployments`: resolve
the wallet's first address, then paginate grants where it is the grantee,
processing each page with the custodial owner type. -/
def custodialRun (env : Env) (address : String) : Except Err Unit × List Event :=
  paginateDeploymentGrants env "grantee" address (fun grants => processPage env .CUSTODIAL grants)

/-- The managed pass of `topUpDeployments`: resolve the managed master
wallet's first address, then paginate grants where it is the granter,
processing each page with the managed owner type. -/
def managedRun (env : Env) : Except Err Unit × List Event :=
  paginateDeploymentGrants env "granter" env.managedAddress (fun grants => processPage env .MANAGED grants)

/-- `topUpDeployments()`: run the two custodial wallet roles under
`Promise.all`, await the join, then run the managed pass. This is the
canonical linearization (custodial traces in wallet order). -/
def topUpDeployments (env : Env) : Except Err Unit × List Event :=
  let custodial := promiseAllUnit
    [custodialRun env env.uaktTopUpAddress, custodialRun env env.usdcTopUpAddress]
  match custodial.1 with
  | .error e => (.error e, custodial.2)
  | .ok _ =>
    let managed := managedRun env
    (managed.1, custodial.2 ++ managed.2)

/-- Interleaving of two traces driven by a boolean schedule: `true` takes the
next step of the left computation, `false` of the right; an exhausted schedule
or an exhausted side flushes the remainder. -/
def interleave {α : Type} : List Bool → List α → List α → List α
  | [], xs, ys => xs ++ ys
  | true :: s, xs, ys =>
    match xs with
    | [] => ys
    | x :: xs' => x :: interleave s xs' ys
  | false :: s, xs, ys =>
    match ys with
    | [] => xs
    | y :: ys' => y :: interleave s xs ys'

/-- Schedule-indexed trace of `topUpDeployments`: `Promise.all` over the two
custodial roles admits any cooperative interleaving of the two roles' traces
(each role is internally sequential), and only after both resolve does the
managed pass run, its trace following in full. -/
def topUpDeploymentsSched (env : Env) (sched : List Bool) : List Event :=
  interleave sched (custodialRun env env.uaktTopUpAddress).2 (custodialRun env env.usdcTopUpAddress).2
    ++ (managedRun env).2

/-- A per-grant terminal marker: each grant's processing emits exactly one —
the `RETRIEVING_DRAINING_DEPLOYMENTS` log on the success path or the
`TOP_UP_FAILED` log on the caught-failure path. -/
def isCompletionMark : Event → Bool
  | .retrievingDraining _ => true
  | .topUpFailed => true
  | _ => false

/-- Number of per-grant completions recorded in a trace. -/
def completions (t : List Event) : Nat := t.countP isCompletionMark

/-- Recognizes a call to the fee-allowance collaborator. -/
def isFeeAllowanceFetch : Event → Bool
  | .feeAllowanceFetched _ _ => true
  | _ => false

/-- Recognizes a TopUpPolicy invocation (`calculateTopUpAmount` or
`validateTopUpAmount`). -/
def isPolicyEvent : Event → Bool
  | .calculatingTopUp => true
  | .validatingTopUp => true
  | _ => false

/-- Total number of grants the registry delivers across all three
paginations of a run (both custodial filters and the managed filter). -/
def totalGrantCount (env : Env) : Nat :=
  ((env.deploymentGrantPages "grantee" env.uaktTopUpAddress).map List.length).sum
    + ((env.deploymentGrantPages "grantee" env.usdcTopUpAddress).map List.length).sum
    + ((env.deploymentGrantPages "granter" env.managedAddress).map List.length).sum

/-! ### Reduction helpers -/

theorem custodial_beq_managed : (OwnerType.CUSTODIAL == OwnerType.MANAGED) = false := rfl

theorem managed_beq_managed : (OwnerType.MANAGED == OwnerType.MANAGED) = true := rfl

theorem custodial_beq_custodial : (OwnerType.CUSTODIAL == OwnerType.CUSTODIAL) = true := rfl

theorem managed_beq_custodial : (OwnerType.MANAGED == OwnerType.CUSTODIAL) = false := rfl

/-- The fee-allowance lookup emits exactly its fetch event, whatever the
upstream returns. -/
theorem retrieveFeesLimit_snd (env : Env) (granter grantee denom : String) :
    (retrieveFeesLimit env granter grantee denom).2 = [.feeAllowanceFetched granter grantee] := by
  unfold retrieveFeesLimit
  cases env.getFeeAllowanceForGranterAndGrantee granter grantee <;> rfl


/-! ### Structural lemmas about the embedded service -/


theorem collect_snd_cases (env : Env) (ot : OwnerType) (g : DeploymentAllowance) :
    (collectWalletBalances env ot g).2 =
        [Event.balanceFetched g.grantee g.authorization.spend_limit.denom] ∨
    (collectWalletBalances env ot g).2 =
        [Event.feeAllowanceFetched g.granter g.grantee] ∨
    (collectWalletBalances env ot g).2 =
        [Event.feeAllowanceFetched g.granter g.grantee,
         Event.balanceFetched g.granter g.authorization.spend_limit.denom] := by
  unfold collectWalletBalances retrieveFeesLimit
  cases ot
  case MANAGED =>
    left
    simp only [managed_beq_managed, if_true]
    cases hb : env.getBalance (([g.granter, g.grantee].reverse).getD 0 "")
        g.authorization.spend_limit.denom <;> simp [hb]
  case CUSTODIAL =>
    right
    simp only [custodial_beq_managed, Bool.false_eq_true, if_false]
    cases hf : env.getFeeAllowanceForGranterAndGrantee (([g.granter, g.grantee]).getD 0 "")
        (([g.granter, g.grantee]).getD 1 "")
    case error e => left; simp [hf]
    case ok fa =>
      right
      cases hb : env.getBalance (([g.granter, g.grantee]).getD 0 "")
          g.authorization.spend_limit.denom <;> simp [hf, hb]

theorem collect_countP_zero (env : Env) (ot : OwnerType) (g : DeploymentAllowance)
    (p : Event → Bool)
    (hfee : ∀ a b, p (Event.feeAllowanceFetched a b) = false)
    (hbal : ∀ a d, p (Event.balanceFetched a d) = false) :
    (collectWalletBalances env ot g).2.countP p = 0 := by
  rcases collect_snd_cases env ot g with h | h | h <;>
    simp [h, List.countP_cons, hfee, hbal]

theorem topUpForGrant_cases (env : Env) (ot : OwnerType) (g : DeploymentAllowance) :
    ((topUpForGrant env ot g).1 = .ok () ∧ completions (topUpForGrant env ot g).2 = 1 ∧
      (topUpForGrant env ot g).2.countP isPolicyEvent = 0) ∨
    (∃ e, (topUpForGrant env ot g).1 = .error e ∧ completions (topUpForGrant env ot g).2 = 0 ∧
      (topUpForGrant env ot g).2.countP isPolicyEvent = 0) := by
  unfold topUpForGrant
  rcases hc : collectWalletBalances env ot g with ⟨res, t⟩
  have ht : t.countP isCompletionMark = 0 := by
    have := collect_countP_zero env ot g isCompletionMark (fun a b => rfl) (fun a d => rfl)
    rwa [hc] at this
  have ht' : t.countP isPolicyEvent = 0 := by
    have := collect_countP_zero env ot g isPolicyEvent (fun a b => rfl) (fun a d => rfl)
    rwa [hc] at this
  cases res
  case error e =>
    right
    exact ⟨e, by simp [hc], by simp [hc, completions, ht], by simp [hc, ht']⟩
  case ok balances =>
    left
    refine ⟨by simp [hc, retrieveDrainingDeployments, policyFanout], ?_, ?_⟩ <;>
      simp [hc, retrieveDrainingDeployments, policyFanout, completions,
        List.countP_append, List.countP_cons, ht, ht', isCompletionMark, isPolicyEvent]

theorem execWithErrorHandler_fst (cb : Except Err Unit × List Event) :
    (execWithErrorHandler cb).1 = .ok () := by
  rcases cb with ⟨r, t⟩; cases r <;> rfl

theorem execTopUp_spec (env : Env) (ot : OwnerType) (g : DeploymentAllowance) :
    (execWithErrorHandler (topUpForGrant env ot g)).1 = .ok () ∧
    completions (execWithErrorHandler (topUpForGrant env ot g)).2 = 1 ∧
    (execWithErrorHandler (topUpForGrant env ot g)).2.countP isPolicyEvent = 0 := by
  rcases topUpForGrant_cases env ot g with ⟨h1, h2, h3⟩ | ⟨e, h1, h2, h3⟩ <;>
    rcases ht : topUpForGrant env ot g with ⟨res, t⟩ <;>
      rw [ht] at h1 <;> simp only at h1 <;> subst h1 <;>
    simp_all [execWithErrorHandler, completions, List.countP_append, List.countP_cons,
      isCompletionMark, isPolicyEvent]

theorem promiseAllUnit_snd (l : List (Except Err Unit × List Event)) :
    (promiseAllUnit l).2 = (l.map Prod.snd).flatten := by
  induction l with
  | nil => rfl
  | cons x xs ih =>
    rcases x with ⟨r, t⟩
    cases r <;> simp [promiseAllUnit, ih]

theorem promiseAllUnit_fst (l : List (Except Err Unit × List Event))
    (h : ∀ x ∈ l, x.1 = .ok ()) : (promiseAllUnit l).1 = .ok () := by
  induction l with
  | nil => rfl
  | cons x xs ih =>
    have hx := h x (List.mem_cons_self x xs)
    have hrest : (promiseAllUnit xs).1 = .ok () :=
      ih (fun y hy => h y (List.mem_cons_of_mem x hy))
    rcases x with ⟨r, t⟩
    simp only at hx
    subst hx
    simp [promiseAllUnit, hrest]

theorem processPage_spec (env : Env) (ot : OwnerType) (grants : List DeploymentAllowance) :
    (processPage env ot grants).1 = .ok () ∧
    completions (processPage env ot grants).2 = grants.length ∧
    (processPage env ot grants).2.countP isPolicyEvent = 0 := by
  induction grants with
  | nil => exact ⟨rfl, rfl, rfl⟩
  | cons g gs ih =>
    obtain ⟨ih1, ih2, ih3⟩ := ih
    obtain ⟨h1, h2, h3⟩ := execTopUp_spec env ot g
    rcases hx : execWithErrorHandler (topUpForGrant env ot g) with ⟨r, t⟩
    rw [hx] at h1 h2 h3
    simp only at h1
    subst h1
    have hpage : processPage env ot (g :: gs) =
        ((processPage env ot gs).1, t ++ (processPage env ot gs).2) := by
      simp [processPage, promiseAllUnit, hx]
    refine ⟨?_, ?_, ?_⟩ <;>
      simp [hpage, ih1, ih2, ih3, completions, List.countP_append, h2, h3] at *
    · omega

theorem runPages_spec (env : Env) (side addr : String) (ot : OwnerType)
    (pages : List (List DeploymentAllowance)) :
    (runPages side addr (fun gs => processPage env ot gs) pages).1 = .ok () ∧
    completions (runPages side addr (fun gs => processPage env ot gs) pages).2 =
      (pages.map List.length).sum ∧
    (runPages side addr (fun gs => processPage env ot gs) pages).2.countP isPolicyEvent = 0 := by
  induction pages with
  | nil => exact ⟨rfl, rfl, rfl⟩
  | cons page rest ih =>
    obtain ⟨ih1, ih2, ih3⟩ := ih
    obtain ⟨h1, h2, h3⟩ := processPage_spec env ot page
    rcases hp : processPage env ot page with ⟨r, t⟩
    rw [hp] at h1 h2 h3
    simp only at h1
    subst h1
    have hrun : runPages side addr (fun gs => processPage env ot gs) (page :: rest) =
        ((runPages side addr (fun gs => processPage env ot gs) rest).1,
         Event.pageFetched side addr page.length ::
           (t ++ (runPages side addr (fun gs => processPage env ot gs) rest).2)) := by
      simp [runPages, hp]
    refine ⟨by simp [hrun, ih1], ?_, ?_⟩
    · have e1 : isCompletionMark (Event.pageFetched side addr page.length) = false := rfl
      rw [hrun]
      simp only [completions, List.countP_cons, List.countP_append, e1, List.map_cons,
        List.sum_cons, Bool.false_eq_true, if_false] at h2 ih2 ⊢
      omega
    · have e1 : isPolicyEvent (Event.pageFetched side addr page.length) = false := rfl
      rw [hrun]
      simp only [List.countP_cons, List.countP_append, e1, Bool.false_eq_true, if_false] at h3 ih3 ⊢
      omega

theorem custodialRun_spec (env : Env) (addr : String) :
    (custodialRun env addr).1 = .ok () ∧
    completions (custodialRun env addr).2 =
      ((env.deploymentGrantPages "grantee" addr).map List.length).sum ∧
    (custodialRun env addr).2.countP isPolicyEvent = 0 :=
  runPages_spec env "grantee" addr .CUSTODIAL (env.deploymentGrantPages "grantee" addr)

theorem managedRun_spec (env : Env) :
    (managedRun env).1 = .ok () ∧
    completions (managedRun env).2 =
      ((env.deploymentGrantPages "granter" env.managedAddress).map List.length).sum ∧
    (managedRun env).2.countP isPolicyEvent = 0 :=
  runPages_spec env "granter" env.managedAddress .MANAGED
    (env.deploymentGrantPages "granter" env.managedAddress)

theorem topUpDeployments_trace (env : Env) :
    topUpDeployments env =
      (.ok (), (custodialRun env env.uaktTopUpAddress).2 ++
        ((custodialRun env env.usdcTopUpAddress).2 ++ []) ++ (managedRun env).2) := by
  have h1 := (custodialRun_spec env env.uaktTopUpAddress).1
  have h2 := (custodialRun_spec env env.usdcTopUpAddress).1
  have h3 := (managedRun_spec env).1
  rcases hc1 : custodialRun env env.uaktTopUpAddress with ⟨r1, t1⟩
  rcases hc2 : custodialRun env env.usdcTopUpAddress with ⟨r2, t2⟩
  rcases hm : managedRun env with ⟨r3, t3⟩
  rw [hc1] at h1; rw [hc2] at h2; rw [hm] at h3
  simp only at h1 h2 h3
  subst h1; subst h2; subst h3
  simp [topUpDeployments, promiseAllUnit, hc1, hc2, hm]

theorem topUpDeployments_spec (env : Env) :
    (topUpDeployments env).1 = .ok () ∧
    completions (topUpDeployments env).2 = totalGrantCount env ∧
    (topUpDeployments env).2.countP isPolicyEvent = 0 := by
  have c1 := (custodialRun_spec env env.uaktTopUpAddress).2
  have c2 := (custodialRun_spec env env.usdcTopUpAddress).2
  have m := (managedRun_spec env).2
  rw [topUpDeployments_trace env]
  refine ⟨rfl, ?_, ?_⟩ <;>
    simp only [completions, totalGrantCount, List.countP_append, List.append_nil] at c1 c2 m ⊢ <;>
    omega

theorem execWithErrorHandler_error (cb : Except Err Unit × List Event) (e : Err)
    (h : cb.1 = .error e) :
    execWithErrorHandler cb = (.ok (), cb.2 ++ [.sentryCaptured, .topUpFailed]) := by
  rcases cb with ⟨r, t⟩
  simp only at h
  subst h
  rfl

theorem interleave_sublist_left {α : Type} (s : List Bool) (xs ys : List α) :
    xs.Sublist (interleave s xs ys) := by
  induction s generalizing xs ys with
  | nil => exact List.sublist_append_left xs ys
  | cons b s ih =>
    cases b
    · cases ys with
      | nil => simp [interleave]
      | cons y ys' => exact (ih xs ys').cons y
    · cases xs with
      | nil => simp [interleave]
      | cons x xs' => exact (ih xs' ys).cons₂ x

theorem interleave_sublist_right {α : Type} (s : List Bool) (xs ys : List α) :
    ys.Sublist (interleave s xs ys) := by
  induction s generalizing xs ys with
  | nil => exact List.sublist_append_right xs ys
  | cons b s ih =>
    cases b
    · cases ys with
      | nil => simp [interleave]
      | cons y ys' => exact (ih xs ys').cons₂ y
    · cases xs with
      | nil => simp [interleave]
      | cons x xs' => exact (ih xs' ys).cons x

theorem interleave_length {α : Type} (s : List Bool) (xs ys : List α) :
    (interleave s xs ys).length = xs.length + ys.length := by
  induction s generalizing xs ys with
  | nil => simp [interleave]
  | cons b s ih =>
    cases b
    · cases ys with
      | nil => simp [interleave]
      | cons y ys' => simp [interleave, ih]; omega
    · cases xs with
      | nil => simp [interleave]
      | cons x xs' => simp [interleave, ih]; omega

theorem collect_custodial_eq (env : Env) (g : DeploymentAllowance) :
    collectWalletBalances env OwnerType.CUSTODIAL g =
      (match env.getFeeAllowanceForGranterAndGrantee g.granter g.grantee with
       | .error e => (.error e, [Event.feeAllowanceFetched g.granter g.grantee])
       | .ok fa =>
         match env.getBalance g.granter g.authorization.spend_limit.denom with
         | .error e => (.error e, [Event.feeAllowanceFetched g.granter g.grantee,
             Event.balanceFetched g.granter g.authorization.spend_limit.denom])
         | .ok coin =>
           (.ok { denom := g.authorization.spend_limit.denom,
                  feesLimit :=
                    match fa.allowance.spend_limit.find?
                        (fun limit => limit.denom == g.authorization.spend_limit.denom) with
                    | some l => parseFloat l.amount
                    | none => some 0,
                  deploymentLimit := parseFloat g.authorization.spend_limit.amount,
                  balance := parseFloat coin.amount,
                  isManaged := false },
            [Event.feeAllowanceFetched g.granter g.grantee,
             Event.balanceFetched g.granter g.authorization.spend_limit.denom])) := by
  cases hf : env.getFeeAllowanceForGranterAndGrantee g.granter g.grantee <;>
    cases hb : env.getBalance g.granter g.authorization.spend_limit.denom <;>
      simp [collectWalletBalances, retrieveFeesLimit, custodial_beq_managed, hf, hb]

/-- Closed-form behaviour of `collectWalletBalances` for the managed owner
type: no fee-allowance lookup, sentinel fee limit, balance fetched for the
grantee. -/
theorem collect_managed_eq (env : Env) (g : DeploymentAllowance) :
    collectWalletBalances env OwnerType.MANAGED g =
      (match env.getBalance g.grantee g.authorization.spend_limit.denom with
       | .error e => (.error e, [Event.balanceFetched g.grantee g.authorization.spend_limit.denom])
       | .ok coin =>
         (.ok { denom := g.authorization.spend_limit.denom,
                feesLimit := some UNLIMITED_FEES_MANAGED_BALANCE,
                deploymentLimit := parseFloat g.authorization.spend_limit.amount,
                balance := parseFloat coin.amount,
                isManaged := true },
          [Event.balanceFetched g.grantee g.authorization.spend_limit.denom])) := by
  cases hb : env.getBalance g.grantee g.authorization.spend_limit.denom <;>
    simp [collectWalletBalances, managed_beq_managed, hb]

/-! ### Concrete fixtures for witnesses and counterexamples -/

/-- The end-to-end custodial grant of the spec's §8 scenario: granter
`wallet1`, grantee `owner1`, denom `uakt`, spend limit `500`. -/
def gCust : DeploymentAllowance :=
  { granter := "wallet1", grantee := "owner1",
    authorization := { spend_limit := { denom := "uakt", amount := "500" } } }

/-- A grant whose spend-limit amount is not numeric. -/
def gNaN : DeploymentAllowance :=
  { granter := "wallet1", grantee := "owner1",
    authorization := { spend_limit := { denom := "uakt", amount := "abc" } } }

/-- A grant with the decimal spend limit `123.45`. -/
def gParse : DeploymentAllowance :=
  { granter := "wallet1", grantee := "owner1",
    authorization := { spend_limit := { denom := "uakt", amount := "123.45" } } }

/-- A second custodial grant, delivered on the USDC role's page. -/
def gUsdc : DeploymentAllowance :=
  { granter := "wallet2", grantee := "owner2",
    authorization := { spend_limit := { denom := "uusdc", amount := "300" } } }

/-- The §8 fee allowance: `5 uakt` between `wallet1` and `owner1`. -/
def faOk : FeeAllowance :=
  { allowance := { spend_limit := [{ denom := "uakt", amount := "5" }] } }

/-- The §8 environment: balances of `42`, the `faOk` fee allowance for the
`wallet1`/`owner1` pair, and one single-grant page per pagination filter. -/
def envOk : Env :=
  { getBalance := fun _ d => .ok { denom := d, amount := "42" }
    getFeeAllowanceForGranterAndGrantee := fun a b =>
      if a = "wallet1" ∧ b = "owner1" then .ok faOk else .error "no allowance"
    deploymentGrantPages := fun side addr =>
      if side = "grantee" ∧ addr = "w-uakt" then [[gCust]]
      else if side = "grantee" ∧ addr = "w-usdc" then [[gUsdc]]
      else if side = "granter" ∧ addr = "w-managed" then [[gCust]]
      else []
    uaktTopUpAddress := "w-uakt"
    usdcTopUpAddress := "w-usdc"
    managedAddress := "w-managed" }

/-- Environment whose balance endpoint returns the non-numeric amount `xyz`. -/
def envNaN : Env :=
  { getBalance := fun _ d => .ok { denom := d, amount := "xyz" }
    getFeeAllowanceForGranterAndGrantee := fun _ _ => .ok faOk
    deploymentGrantPages := fun _ _ => []
    uaktTopUpAddress := "w-uakt"
    usdcTopUpAddress := "w-usdc"
    managedAddress := "w-managed" }

/-- Environment whose fee allowance carries the negative amount `-5` for
`uakt`. -/
def envNeg : Env :=
  { getBalance := fun _ d => .ok { denom := d, amount := "42" }
    getFeeAllowanceForGranterAndGrantee := fun _ _ =>
      .ok { allowance := { spend_limit := [{ denom := "uakt", amount := "-5" }] } }
    deploymentGrantPages := fun _ _ => []
    uaktTopUpAddress := "w-uakt"
    usdcTopUpAddress := "w-usdc"
    managedAddress := "w-managed" }

/-- Environment whose fee allowance has no entry for `uakt`. -/
def envNoMatch : Env :=
  { getBalance := fun _ d => .ok { denom := d, amount := "42" }
    getFeeAllowanceForGranterAndGrantee := fun _ _ =>
      .ok { allowance := { spend_limit := [{ denom := "uusdc", amount := "7" }] } }
    deploymentGrantPages := fun _ _ => []
    uaktTopUpAddress := "w-uakt"
    usdcTopUpAddress := "w-usdc"
    managedAddress := "w-managed" }

/-- Environment whose balance endpoint always throws. -/
def envBad : Env :=
  { getBalance := fun _ _ => .error "boom"
    getFeeAllowanceForGranterAndGrantee := fun _ _ => .ok faOk
    deploymentGrantPages := fun _ _ => []
    uaktTopUpAddress := "w-uakt"
    usdcTopUpAddress := "w-usdc"
    managedAddress := "w-managed" }

/-- Environment for the numeric-parsing scenario: every balance is the
string `0`. -/
def envParse : Env :=
  { getBalance := fun _ d => .ok { denom := d, amount := "0" }
    getFeeAllowanceForGranterAndGrantee := fun _ _ => .ok faOk
    deploymentGrantPages := fun _ _ => []
    uaktTopUpAddress := "w-uakt"
    usdcTopUpAddress := "w-usdc"
    managedAddress := "w-managed" }

/-- The `Balances` record `collectWalletBalances envOk MANAGED gCust`
produces. -/
def bManaged : Balances :=
  { denom := "uakt", feesLimit := some UNLIMITED_FEES_MANAGED_BALANCE,
    deploymentLimit := some 500, balance := some 42, isManaged := true }

/-- The `Balances` record `collectWalletBalances envOk CUSTODIAL gCust`
produces (the §8 expected outcome). -/
def bCust : Balances :=
  { denom := "uakt", feesLimit := some 5, deploymentLimit := some 500,
    balance := some 42, isManaged := false }

/-- The `Balances` record produced for the malformed-amount scenario: NaN
spend limit and balance. -/
def bNaN : Balances :=
  { denom := "uakt", feesLimit := some 5, deploymentLimit := none,
    balance := none, isManaged := false }

/-- The `Balances` record produced when no fee-allowance entry matches the
grant's denom. -/
def bNoMatch : Balances :=
  { denom := "uakt", feesLimit := some 0, deploymentLimit := some 500,
    balance := some 42, isManaged := false }

/-- The coin carrying the non-numeric upstream balance amount. -/
def coinNaN : Coin := { denom := "uakt", amount := "xyz" }

/-! ### The claims -/

theorem claim_c1_per_grant_failure_isolation :
    (∀ (env : Env) (ot : OwnerType) (grants : List DeploymentAllowance),
        (processPage env ot grants).1 = Except.ok () ∧
        completions (processPage env ot grants).2 = grants.length) ∧
    (∀ (env : Env) (ot : OwnerType) (g : DeploymentAllowance) (e : Err),
        (topUpForGrant env ot g).1 = Except.error e →
        execWithErrorHandler (topUpForGrant env ot g) =
          (Except.ok (), (topUpForGrant env ot g).2 ++
            [Event.sentryCaptured, Event.topUpFailed])) ∧
    (∀ env : Env,
        (topUpDeployments env).1 = Except.ok () ∧
        completions (topUpDeployments env).2 = totalGrantCount env) :=
  ⟨fun env ot grants => ⟨(processPage_spec env ot grants).1, (processPage_spec env ot grants).2.1⟩,
   fun _ _ _ e h => execWithErrorHandler_error _ e h,
   fun env => ⟨(topUpDeployments_spec env).1, (topUpDeployments_spec env).2.1⟩⟩

/-- Witness for C1 at a concrete input: with the balance endpoint throwing
`boom`, `topUpForGrant` fails and the wrapper swallows the error, appending
the Sentry capture and the `TOP_UP_FAILED` log. -/
theorem claim_c1_witness :
    (topUpForGrant envBad OwnerType.CUSTODIAL gCust).1 = Except.error "boom" ∧
    execWithErrorHandler (topUpForGrant envBad OwnerType.CUSTODIAL gCust) =
      (Except.ok (), (topUpForGrant envBad OwnerType.CUSTODIAL gCust).2 ++
        [Event.sentryCaptured, Event.topUpFailed]) :=
  ⟨by decide,
   claim_c1_per_grant_failure_isolation.2.1 envBad OwnerType.CUSTODIAL gCust "boom" (by decide)⟩

/-- C2: any exception raised anywhere inside per-grant processing — owner
resolution, balance collection (including the fee-allowance lookup),
deployment lookup, or policy invocation — is caught at the single
`execWithErrorHandler` boundary: the wrapped computation succeeds for every
environment, owner type and grant. -/
theorem claim_c2_single_error_boundary :
    ∀ (env : Env) (ot : OwnerType) (g : DeploymentAllowance),
      (execWithErrorHandler (topUpForGrant env ot g)).1 = Except.ok () :=
  fun env ot g => (execTopUp_spec env ot g).1

/-- Counterexample to C3: with `spend_limit.amount = "abc"` and an upstream
balance amount `"xyz"`, `collectWalletBalances` does not fail with a
`MalformedAmount` error — it returns a `Balances` record whose
`deploymentLimit` and `balance` are `NaN` (modelled as `none`). -/
theorem claim_c3_counterexample :
    (collectWalletBalances envNaN OwnerType.CUSTODIAL gNaN).1 = Except.ok bNaN ∧
    bNaN.deploymentLimit = none ∧ bNaN.balance = none :=
  ⟨by decide, rfl, rfl⟩

/-- C3 (amended): `collectWalletBalances` never fails because of a
non-numeric amount — the only errors it propagates originate in the upstream
fee-allowance or balance calls; whenever it returns a record, the record's
`deploymentLimit` is the raw `parseFloat` of the grant's spend-limit amount
(`NaN` when non-numeric) and its `balance` is the raw `parseFloat` of the
upstream balance amount (`NaN` when non-numeric). -/
theorem claim_c3_amended_no_parse_failure :
    ∀ (env : Env) (ot : OwnerType) (g : DeploymentAllowance),
      (∀ e, (collectWalletBalances env ot g).1 = Except.error e →
        (∃ a b, env.getFeeAllowanceForGranterAndGrantee a b = Except.error e) ∨
        (∃ a d, env.getBalance a d = Except.error e)) ∧
      (∀ b, (collectWalletBalances env ot g).1 = Except.ok b →
        b.deploymentLimit = parseFloat g.authorization.spend_limit.amount ∧
        (∀ coin, env.getBalance
            (if ot == OwnerType.MANAGED then g.grantee else g.granter)
            g.authorization.spend_limit.denom = Except.ok coin →
          b.balance = parseFloat coin.amount)) := by
  intro env ot g
  cases ot
  case CUSTODIAL =>
    rw [collect_custodial_eq]
    constructor
    · intro e he
      cases hf : env.getFeeAllowanceForGranterAndGrantee g.granter g.grantee <;>
        simp only [hf] at he
      · injection he with h
        subst h
        exact .inl ⟨g.granter, g.grantee, hf⟩
      · cases hbal : env.getBalance g.granter g.authorization.spend_limit.denom <;>
          simp only [hbal] at he
        · injection he with h
          subst h
          exact .inr ⟨g.granter, g.authorization.spend_limit.denom, hbal⟩
        · exact Except.noConfusion he
    · intro b hb
      cases hf : env.getFeeAllowanceForGranterAndGrantee g.granter g.grantee <;>
        simp only [hf] at hb
      · exact Except.noConfusion hb
      · cases hbal : env.getBalance g.granter g.authorization.spend_limit.denom <;>
          simp only [hbal] at hb
        · exact Except.noConfusion hb
        · injection hb with h
          subst h
          refine ⟨rfl, ?_⟩
          intro coin' hc'
          simp only [custodial_beq_managed, Bool.false_eq_true, if_false] at hc'
          rw [hbal] at hc'
          injection hc' with h2
          subst h2
          rfl
  case MANAGED =>
    rw [collect_managed_eq]
    constructor
    · intro e he
      cases hbal : env.getBalance g.grantee g.authorization.spend_limit.denom <;>
        simp only [hbal] at he
      · injection he with h
        subst h
        exact .inr ⟨g.grantee, g.authorization.spend_limit.denom, hbal⟩
      · exact Except.noConfusion he
    · intro b hb
      cases hbal : env.getBalance g.grantee g.authorization.spend_limit.denom <;>
        simp only [hbal] at hb
      · exact Except.noConfusion hb
      · injection hb with h
        subst h
        refine ⟨rfl, ?_⟩
        intro coin' hc'
        simp only [managed_beq_managed, if_true] at hc'
        rw [hbal] at hc'
        injection hc' with h2
        subst h2
        rfl

/-- Witness for the amended C3 at a concrete input: the record produced for
the `"abc"` spend limit and `"xyz"` balance carries exactly the `parseFloat`
images of those strings (both `NaN`). -/
theorem claim_c3_witness :
    bNaN.deploymentLimit = parseFloat gNaN.authorization.spend_limit.amount ∧
    bNaN.balance = parseFloat coinNaN.amount :=
  ⟨((claim_c3_amended_no_parse_failure envNaN OwnerType.CUSTODIAL gNaN).2 bNaN (by decide)).1,
   ((claim_c3_amended_no_parse_failure envNaN OwnerType.CUSTODIAL gNaN).2 bNaN (by decide)).2
     coinNaN (by decide)⟩

/-- C4: under every cooperative schedule of the two custodial roles'
`Promise.all` fan-out, the run's trace is a custodial prefix — an interleaving
containing each custodial role's full trace, and nothing else — followed by
the entire managed pass, so the managed pagination's first call is strictly
after every custodial role's last page; and the two schedules `[true]` and
`[false]` realize both relative orders of the two custodial roles' first page
fetches, so no ordering holds between them. -/
theorem claim_c4_custodial_concurrency_managed_barrier :
    (∀ (env : Env) (sched : List Bool), ∃ pre,
        topUpDeploymentsSched env sched = pre ++ (managedRun env).2 ∧
        (custodialRun env env.uaktTopUpAddress).2.Sublist pre ∧
        (custodialRun env env.usdcTopUpAddress).2.Sublist pre ∧
        pre.length = (custodialRun env env.uaktTopUpAddress).2.length +
          (custodialRun env env.usdcTopUpAddress).2.length) ∧
    (topUpDeploymentsSched envOk [true]).head? =
      some (Event.pageFetched "grantee" "w-uakt" 1) ∧
    (topUpDeploymentsSched envOk [false]).head? =
      some (Event.pageFetched "grantee" "w-usdc" 1) := by
  refine ⟨?_, by decide, by decide⟩
  intro env sched
  exact ⟨interleave sched (custodialRun env env.uaktTopUpAddress).2
      (custodialRun env env.usdcTopUpAddress).2,
    rfl, interleave_sublist_left _ _ _, interleave_sublist_right _ _ _,
    interleave_length _ _ _⟩

/-- C5: on the managed path `collectWalletBalances` performs no
fee-allowance lookup (no such call event ever appears in its trace) and every
record it returns has the configured unlimited sentinel as `feesLimit`. -/
theorem claim_c5_managed_unlimited_no_fee_lookup :
    ∀ (env : Env) (g : DeploymentAllowance),
      (collectWalletBalances env OwnerType.MANAGED g).2.countP isFeeAllowanceFetch = 0 ∧
      (∀ b, (collectWalletBalances env OwnerType.MANAGED g).1 = Except.ok b →
        b.feesLimit = some UNLIMITED_FEES_MANAGED_BALANCE) := by
  intro env g
  rw [collect_managed_eq]
  cases hb : env.getBalance g.grantee g.authorization.spend_limit.denom
  case error e =>
    refine ⟨rfl, ?_⟩
    intro b hb'
    exact Except.noConfusion hb'
  case ok coin =>
    refine ⟨rfl, ?_⟩
    intro b hb'
    injection hb' with h
    subst h
    rfl

/-- Witness for C5 at a concrete input: the managed record for the §8 grant
carries the sentinel and its trace has no fee-allowance call. -/
theorem claim_c5_witness :
    (collectWalletBalances envOk OwnerType.MANAGED gCust).2.countP isFeeAllowanceFetch = 0 ∧
    bManaged.feesLimit = some UNLIMITED_FEES_MANAGED_BALANCE :=
  ⟨(claim_c5_managed_unlimited_no_fee_lookup envOk gCust).1,
   (claim_c5_managed_unlimited_no_fee_lookup envOk gCust).2 bManaged (by decide)⟩

/-- C6: for a custodial grant whose fee allowance's spend-limit list has no
entry matching the grant's denom, every record `collectWalletBalances`
returns has `feesLimit = 0`. -/
theorem claim_c6_no_matching_denom_fees_zero :
    ∀ (env : Env) (g : DeploymentAllowance) (fa : FeeAllowance),
      env.getFeeAllowanceForGranterAndGrantee g.granter g.grantee = Except.ok fa →
      (∀ l ∈ fa.allowance.spend_limit, l.denom ≠ g.authorization.spend_limit.denom) →
      ∀ b, (collectWalletBalances env OwnerType.CUSTODIAL g).1 = Except.ok b →
        b.feesLimit = some 0 := by
  intro env g fa hfa hnone b hb
  rw [collect_custodial_eq] at hb
  simp only [hfa] at hb
  have hfind : fa.allowance.spend_limit.find?
      (fun limit => limit.denom == g.authorization.spend_limit.denom) = none := by
    apply List.find?_eq_none.mpr
    intro l hl
    simpa using hnone l hl
  cases hbal : env.getBalance g.granter g.authorization.spend_limit.denom <;>
    simp only [hbal] at hb
  · exact Except.noConfusion hb
  · rw [hfind] at hb
    injection hb with h
    subst h
    rfl

/-- Witness for C6 at a concrete input: the allowance listing only `uusdc`
yields `feesLimit = 0` for the `uakt` grant. -/
theorem claim_c6_witness : bNoMatch.feesLimit = some 0 :=
  claim_c6_no_matching_denom_fees_zero envNoMatch gCust
    { allowance := { spend_limit := [{ denom := "uusdc", amount := "7" }] } }
    (by decide) (by decide) bNoMatch (by decide)

/-- C7: side ordering of balance and fee lookups. Custodially, every balance
fetch is for the granter and every fee lookup is granter-to-grantee — the
first element of the non-reversed `[granter, grantee]` pair; managed, every
balance fetch is for the grantee — the first element of the reversed pair —
and that fetch always happens; custodially the granter's balance fetch
happens whenever the fee lookup succeeded. -/
theorem claim_c7_side_ordering :
    ∀ (env : Env) (g : DeploymentAllowance),
      (∀ a d, Event.balanceFetched a d ∈ (collectWalletBalances env OwnerType.CUSTODIAL g).2 →
        a = g.granter) ∧
      (∀ a d, Event.balanceFetched a d ∈ (collectWalletBalances env OwnerType.MANAGED g).2 →
        a = g.grantee) ∧
      (∀ a b, Event.feeAllowanceFetched a b ∈ (collectWalletBalances env OwnerType.CUSTODIAL g).2 →
        a = g.granter ∧ b = g.grantee) ∧
      Event.balanceFetched g.grantee g.authorization.spend_limit.denom ∈
        (collectWalletBalances env OwnerType.MANAGED g).2 ∧
      (∀ fa, env.getFeeAllowanceForGranterAndGrantee g.granter g.grantee = Except.ok fa →
        Event.balanceFetched g.granter g.authorization.spend_limit.denom ∈
          (collectWalletBalances env OwnerType.CUSTODIAL g).2) := by
  intro env g
  refine ⟨?_, ?_, ?_, ?_, ?_⟩
  · intro a d h
    rw [collect_custodial_eq] at h
    cases hf : env.getFeeAllowanceForGranterAndGrantee g.granter g.grantee <;>
      simp only [hf] at h
    · simp at h
    · cases hbal : env.getBalance g.granter g.authorization.spend_limit.denom <;>
        simp only [hbal] at h <;> simp at h <;> exact h.1
  · intro a d h
    rw [collect_managed_eq] at h
    cases hbal : env.getBalance g.grantee g.authorization.spend_limit.denom <;>
      simp only [hbal] at h <;> simp at h <;> exact h.1
  · intro a b h
    rw [collect_custodial_eq] at h
    cases hf : env.getFeeAllowanceForGranterAndGrantee g.granter g.grantee <;>
      simp only [hf] at h
    · simp at h
      exact h
    · cases hbal : env.getBalance g.granter g.authorization.spend_limit.denom <;>
        simp only [hbal] at h <;> simp at h <;> exact h
  · rw [collect_managed_eq]
    cases hbal : env.getBalance g.grantee g.authorization.spend_limit.denom <;>
      simp only [hbal] <;> simp
  · intro fa hfa
    rw [collect_custodial_eq]
    simp only [hfa]
    cases hbal : env.getBalance g.granter g.authorization.spend_limit.denom <;>
      simp only [hbal] <;> simp

/-- Witness for C7 at a concrete input: the §8 custodial run fetches
`wallet1` (the granter). -/
theorem claim_c7_witness :
    ("wallet1" : String) = gCust.granter ∧
    Event.balanceFetched gCust.granter gCust.authorization.spend_limit.denom ∈
      (collectWalletBalances envOk OwnerType.CUSTODIAL gCust).2 :=
  ⟨(claim_c7_side_ordering envOk gCust).1 "wallet1" "uakt" (by decide),
   (claim_c7_side_ordering envOk gCust).2.2.2.2 faOk (by decide)⟩

/-- Counterexample to C8: a fee allowance carrying the amount `"-5"` for the
grant's denom makes `collectWalletBalances` return `feesLimit = -5`, which is
negative — the code does not clamp the looked-up value. -/
theorem claim_c8_counterexample :
    (collectWalletBalances envNeg OwnerType.CUSTODIAL gCust).1 =
      Except.ok { denom := "uakt", feesLimit := some (-5), deploymentLimit := some 500,
                  balance := some 42, isManaged := false } ∧
    (-5 : ℚ) < 0 :=
  ⟨by decide, by decide⟩

/-- C8 (amended): every record `collectWalletBalances` returns has a defined
`feesLimit` that is either the configured unlimited sentinel (managed) or the
value derived from the successfully fetched fee-allowance record — the parsed
matching spend-limit amount, or `0` when no denom entry matches (custodial);
the value is not clamped, so a negative or non-numeric upstream amount passes
through. -/
theorem claim_c8_amended_feesLimit_provenance :
    ∀ (env : Env) (ot : OwnerType) (g : DeploymentAllowance) (b : Balances),
      (collectWalletBalances env ot g).1 = Except.ok b →
      (b.isManaged = true → b.feesLimit = some UNLIMITED_FEES_MANAGED_BALANCE) ∧
      (b.isManaged = false →
        (∃ fa, env.getFeeAllowanceForGranterAndGrantee g.granter g.grantee = Except.ok fa) ∧
        (∀ fa, env.getFeeAllowanceForGranterAndGrantee g.granter g.grantee = Except.ok fa →
          b.feesLimit =
            match fa.allowance.spend_limit.find?
                (fun limit => limit.denom == g.authorization.spend_limit.denom) with
            | some l => parseFloat l.amount
            | none => some 0)) := by
  intro env ot g b hb
  cases ot
  case CUSTODIAL =>
    rw [collect_custodial_eq] at hb
    cases hf : env.getFeeAllowanceForGranterAndGrantee g.granter g.grantee <;>
      simp only [hf] at hb
    · exact Except.noConfusion hb
    case ok fa =>
      cases hbal : env.getBalance g.granter g.authorization.spend_limit.denom <;>
        simp only [hbal] at hb
      · exact Except.noConfusion hb
      · injection hb with h
        subst h
        refine ⟨fun hm => by simp at hm, fun _ => ⟨⟨fa, rfl⟩, ?_⟩⟩
        intro fa' hfa'
        injection hfa' with h2
        subst h2
        rfl
  case MANAGED =>
    rw [collect_managed_eq] at hb
    cases hbal : env.getBalance g.grantee g.authorization.spend_limit.denom <;>
      simp only [hbal] at hb
    · exact Except.noConfusion hb
    · injection hb with h
      subst h
      exact ⟨fun _ => rfl, fun hm => by simp at hm⟩

/-- Witness for the amended C8 at a concrete input: the §8 custodial record's
`feesLimit` is exactly the value derived from the concrete allowance. -/
theorem claim_c8_witness :
    bCust.feesLimit =
      (match faOk.allowance.spend_limit.find?
          (fun limit => limit.denom == gCust.authorization.spend_limit.denom) with
       | some l => parseFloat l.amount
       | none => some 0) :=
  ((claim_c8_amended_feesLimit_provenance envOk OwnerType.CUSTODIAL gCust bCust
      (by decide)).2 (by decide)).2 faOk (by decide)

/-- C9: a grant with `spend_limit.amount = "123.45"` yields
`deploymentLimit = 123.45` (the exact rational 12345/100) and a balance
amount of `"0"` yields `balance = 0` — zero is a value, not missing. -/
theorem claim_c9_numeric_parsing :
    (collectWalletBalances envParse OwnerType.CUSTODIAL gParse).1 =
      Except.ok { denom := "uakt", feesLimit := some 5,
                  deploymentLimit := some (mkRat 12345 100), balance := some 0,
                  isManaged := false } ∧
    mkRat 12345 100 = (123.45 : ℚ) ∧ (123.45 : ℚ) = (12345 : ℚ) / 100 := by
  refine ⟨by decide, ?_, by norm_num⟩
  rw [Rat.mkRat_eq_div]
  norm_num

/-- C10: `retrieveDrainingDeployments` is a stub returning the empty list
for every owner, so no run of `topUpForGrant` — and no full
`topUpDeployments` run — ever invokes `calculateTopUpAmount` or
`validateTopUpAmount`: the policy stubs' log events never appear. -/
theorem claim_c10_draining_stub_no_policy :
    (∀ owner : String,
        retrieveDrainingDeployments owner = (Except.ok [], [Event.retrievingDraining owner])) ∧
    (∀ (env : Env) (ot : OwnerType) (g : DeploymentAllowance),
        (topUpForGrant env ot g).2.countP isPolicyEvent = 0) ∧
    (∀ env : Env, (topUpDeployments env).2.countP isPolicyEvent = 0) :=
  ⟨fun _ => rfl,
   fun env ot g => by
     rcases topUpForGrant_cases env ot g with ⟨_, _, h⟩ | ⟨_, _, _, h⟩ <;> exact h,
   fun env => (topUpDeployments_spec env).2.2⟩
